import Mathlib

/-!
Shallow embedding of the Lampioni daily reconciliation engine
(`scripts/process_daily.py`) and proofs about its merge, freshness gate,
provider selection, sorting and aggregation behaviour.

Modelling conventions:
* Python dicts that are only iterated are modelled as lists in insertion
  order; dict indexing by id (`existing_by_id`) keeps the dict semantics
  where a later entry with the same key overwrites an earlier one.
* Python strings are Lean `String`s; Python string comparison is the
  code-point lexicographic order, embedded below as an executable
  comparator on the underlying character lists.
* `datetime` arithmetic in the freshness gate is abstracted by passing the
  parse outcome (lag in hours, a rational; `none` when parsing raises) as
  an argument; float division is idealised as exact rational arithmetic.
* Network I/O is abstracted by passing each endpoint attempt outcome as
  data; file I/O by an explicit `Disk` record, with the run returning
  `Except` so a failed run commits no new disk state.
-/

namespace Lampioni

/-! ### Python string comparison, executable -/

/-- Code-point lexicographic strict order on character lists, as Python
compares strings. -/
def charListLt : List Char → List Char → Bool
  | [], [] => false
  | [], _ :: _ => true
  | _ :: _, [] => false
  | a :: as, b :: bs => a < b || (a == b && charListLt as bs)

/-- Python string `<`. -/
def strLtB (a b : String) : Bool := charListLt a.data b.data

/-! ### Data model -/

/-- One GeoJSON feature of the catalog, flattened: the constant
`"type": "Feature"` member and the derived `"id": "node/<osm_id>"` member
are determined by `osm_id` and carry no information.  `date_added` is
absent (`none`) until a merge assigns it, matching the `.get` accesses in
the script; coordinates are carried opaquely. -/
structure Feature where
  osm_id : Int
  lon : Int
  lat : Int
  user : String
  timestamp : String
  date_added : Option String
  tags : List (String × String)
deriving DecidableEq, Repr

/-- The raw Overpass element as the fetch sees it: `user` and `timestamp`
are optional metadata, `typ` is the element type string. -/
structure RawElement where
  typ : String
  id : Int
  lon : Int
  lat : Int
  user : Option String
  timestamp : Option String
  tags : List (String × String)
deriving DecidableEq, Repr

/-- known-ids.json. -/
structure KnownIds where
  baseline_ids : List Int
  new_ids : List (String × List Int)
deriving DecidableEq, Repr

/-- stats.json. -/
structure Stats where
  baseline_count : Nat
  new_count : Nat
  last_updated : String
  data_source : String
  leaderboard : List (String × Nat)
  daily_additions : List (String × Nat)
deriving DecidableEq, Repr

/-- The persisted artifacts the daily run reads and writes. -/
structure Disk where
  known_ids : KnownIds
  new_lamps : List Feature
  stats : Stats
  last_updated_txt : String
deriving DecidableEq, Repr

/-- Maximum acceptable data lag in hours (`MAX_DATA_LAG_HOURS`). -/
def MAX_DATA_LAG_HOURS : ℚ := 24

/-- Tag allow-list (`STREETLAMP_TAGS`). -/
def STREETLAMP_TAGS : List String :=
  ["lamp_mount", "lamp_type", "support", "ref", "operator",
   "height", "direction", "colour", "light:colour", "light:count",
   "manufacturer", "model", "start_date"]

/-! ### Freshness gate (`check_overpass_timestamp`) -/

/-- `check_overpass_timestamp`.  `timestamp_str` is the
`osm3s.timestamp_osm_base` field, `""` when missing; `parseLag` is the
outcome of the `datetime` block: the lag `(now - data_time)` in hours when
the ISO parse succeeds, `none` when it raises.  Returns
`(is_fresh, lag_hours, timestamp_str)` as the script does. -/
def check_overpass_timestamp (timestamp_str : String) (parseLag : Option ℚ) :
    Bool × ℚ × String :=
  if timestamp_str == "" then (true, 0, "unknown")
  else
    match parseLag with
    | none => (true, 0, timestamp_str)
    | some lag => (decide (lag ≤ MAX_DATA_LAG_HOURS), lag, timestamp_str)

/-! ### Provider selection (`overpass_query`) -/

/-- The parsed JSON of one Overpass response, restricted to the members the
script reads. -/
structure OverpassResponse where
  timestamp_osm_base : String
  parseLag : Option ℚ
  elements : List RawElement
deriving DecidableEq, Repr

/-- What one endpoint attempt inside `overpass_query` yields: an HTTP error
status, a transport error, any other exception (e.g. a JSON decode
failure), or a parsed response that still has to pass the freshness
gate. -/
inductive Attempt where
  | httpError (code : Nat)
  | urlError
  | exn
  | ok (r : OverpassResponse)
deriving DecidableEq, Repr

/-- `overpass_query`: walk the endpoint list in preference order, skipping
failed attempts and stale responses, returning the first fresh parsed
response; raise (here: `Except.error`) when every endpoint is exhausted.
Error diagnostics (`last_error`) are not modelled. -/
def overpass_query : List Attempt → Except Unit OverpassResponse
  | [] => .error ()
  | .ok r :: rest =>
      if (check_overpass_timestamp r.timestamp_osm_base r.parseLag).1 then .ok r
      else overpass_query rest
  | .httpError _ :: rest => overpass_query rest
  | .urlError :: rest => overpass_query rest
  | .exn :: rest => overpass_query rest

/-! ### Entity normalisation (`fetch_new_streetlamps_overpass`) -/

/-- The per-element body of the `fetch_new_streetlamps_overpass` loop:
missing `user` maps to the `"unknown"` sentinel, missing `timestamp` to
`""`, and only the allow-listed tags are copied, in allow-list order. -/
def normalizeElement (e : RawElement) : Feature :=
  { osm_id := e.id
    lon := e.lon
    lat := e.lat
    user := e.user.getD "unknown"
    timestamp := e.timestamp.getD ""
    date_added := none
    tags := STREETLAMP_TAGS.filterMap fun t =>
      (e.tags.lookup t).map fun v => (t, v) }

/-- The `lamps` dict built by `fetch_new_streetlamps_overpass`: non-node
elements are skipped, the rest normalised (dict keyed by `osm_id`,
modelled as a list in iteration order). -/
def fetchNormalize (elements : List RawElement) : List Feature :=
  (elements.filter fun e => e.typ == "node").map normalizeElement

/-- `fetch_new_streetlamps_overpass`: query the endpoints, then normalise
the fresh response. -/
def fetch_new_streetlamps_overpass (attempts : List Attempt) :
    Except Unit (List Feature) :=
  (overpass_query attempts).map fun r => fetchNormalize r.elements

/-- `fetch_new_streetlamps`: Overpass first; on failure fall back to
Postpass when enabled (its outcome passed as data), re-raising otherwise.
Returns `(lamps, has_metadata)`. -/
def fetch_new_streetlamps (attempts : List Attempt)
    (postpass : Except Unit (List Feature)) (use_postpass_fallback : Bool) :
    Except Unit (List Feature × Bool) :=
  match fetch_new_streetlamps_overpass attempts with
  | .ok lamps => .ok (lamps, true)
  | .error e =>
      if use_postpass_fallback then postpass.map fun lamps => (lamps, false)
      else .error e

/-! ### Reconciliation merge (`main`, lines 334-363) -/

/-- `existing_by_id` lookup: dict comprehension keyed by
`properties.osm_id`, where a later feature with the same id overwrites an
earlier one, so lookup returns the last match. -/
def lookupById (fs : List Feature) (i : Int) : Option Feature :=
  (fs.filter fun f => f.osm_id == i).getLast?

/-- `truly_new`: drop every fetched feature whose id is in
`baseline_ids`. -/
def trulyNew (baseline : List Int) (fetched : List Feature) : List Feature :=
  fetched.filter fun f => !baseline.contains f.osm_id

/-- The body of the per-feature merge loop: a feature already known keeps
the prior `date_added` (defaulting to today when the prior record lacks
one) and, when the fetch has no metadata and the prior contributor is not
the sentinel, the prior contributor; a first observation derives
`date_added` from the day part of its edit timestamp, else today. -/
def mergeStep (existing : List Feature) (today : String) (has_metadata : Bool)
    (f : Feature) : Feature :=
  match lookupById existing f.osm_id with
  | some ex =>
      let f1 := { f with date_added := some (ex.date_added.getD today) }
      if !has_metadata && ex.user != "unknown" then { f1 with user := ex.user }
      else f1
  | none =>
      if f.timestamp != "" then { f with date_added := some (f.timestamp.take 10) }
      else { f with date_added := some today }

/-! ### Output ordering (`main`, line 363) -/

/-- Sort key date component: `properties.get("date_added", "0000-00-00")`. -/
def dkey (f : Feature) : String := f.date_added.getD "0000-00-00"

/-- Python ascending comparison of the sort key `(date_added, -osm_id)`. -/
def keyLtB (f g : Feature) : Bool :=
  strLtB (dkey f) (dkey g) ||
    (dkey f == dkey g && decide ((-f.osm_id) < (-g.osm_id)))

/-- The relation `list.sort(key=..., reverse=True)` sorts by: `f` may come
before `g` when the key of `f` is not strictly below the key of `g`. -/
def featRel (f g : Feature) : Prop := keyLtB f g = false

instance : DecidableRel featRel := fun _ _ => instDecidableEqBool _ _

/-- `new_features.sort(key=lambda f: (date_added, -osm_id), reverse=True)`:
a stable descending sort, embedded as stable insertion sort by
`featRel`. -/
def sortFeatures (l : List Feature) : List Feature := List.insertionSort featRel l

/-! ### Aggregation (`main`, lines 366-386) -/

/-- Increment a counter dict entry in insertion order (`d[k] = d.get(k, 0) + 1`). -/
def bump (l : List (String × Nat)) (k : String) : List (String × Nat) :=
  match l with
  | [] => [(k, 1)]
  | (v, c) :: rest => if v == k then (v, c + 1) :: rest else (v, c) :: bump rest k

/-- `user_counts`: contributor histogram over the merged features, in first
appearance order. -/
def user_counts (fs : List Feature) : List (String × Nat) :=
  fs.foldl (fun acc f => bump acc f.user) []

/-- `stats["leaderboard"]`: stable sort of `user_counts.items()` by count
descending, truncated to 20. -/
def leaderboard (fs : List Feature) : List (String × Nat) :=
  (List.insertionSort (fun a b : String × Nat => b.2 ≤ a.2) (user_counts fs)).take 20

/-- The `daily` dict: per-`date_added` counts in first appearance order. -/
def dailyCounts (fs : List Feature) : List (String × Nat) :=
  fs.foldl (fun acc f => bump acc (f.date_added.getD "unknown")) []

/-- `stats["daily_additions"]`: the `daily` dict re-sorted by date key
ascending (`dict(sorted(daily.items()))`). -/
def daily_additions (fs : List Feature) : List (String × Nat) :=
  List.insertionSort (fun a b : String × Nat => strLtB b.1 a.1 = false) (dailyCounts fs)

/-- Stats update: `new_count`, `last_updated`, `data_source`,
`leaderboard` and `daily_additions` are overwritten; `baseline_count` is
carried over from the prior stats. -/
def updateStats (prior : Stats) (fs : List Feature) (has_metadata : Bool)
    (nowIso : String) : Stats :=
  { prior with
    new_count := fs.length
    last_updated := nowIso
    data_source := if has_metadata then "overpass" else "postpass"
    leaderboard := leaderboard fs
    daily_additions := daily_additions fs }

/-! ### The daily run -/

/-- The pure part of `main` after the fetch: filter the baseline, merge
against the prior features, sort, recompute stats, and replace
`known_ids["new_ids"]` with the single entry
`{today: list(truly_new.keys())}` (line 390, "Simplified: just track
current new IDs"). -/
def runDailyCore (d : Disk) (fetched : List Feature) (has_metadata : Bool)
    (today nowIso : String) : Disk :=
  let baseline := d.known_ids.baseline_ids
  let tn := trulyNew baseline fetched
  let new_features := sortFeatures (tn.map (mergeStep d.new_lamps today has_metadata))
  let stats := updateStats d.stats new_features has_metadata nowIso
  { known_ids :=
      { baseline_ids := baseline
        new_ids := [(today, tn.map fun f => f.osm_id)] }
    new_lamps := new_features
    stats := stats
    last_updated_txt := stats.last_updated }

/-- `main` from the fetch onward: a failed fetch propagates as an error
before any artifact is written, so no new `Disk` is produced; a successful
fetch commits `runDailyCore`. -/
def mainRun (d : Disk) (attempts : List Attempt)
    (postpass : Except Unit (List Feature)) (use_postpass_fallback : Bool)
    (today nowIso : String) : Except Unit Disk :=
  match fetch_new_streetlamps attempts postpass use_postpass_fallback with
  | .error e => .error e
  | .ok (lamps, has_metadata) => .ok (runDailyCore d lamps has_metadata today nowIso)

/-! ### Order facts about the comparator -/

theorem charListLt_irrefl (a : List Char) : charListLt a a = false := by
  induction a with
  | nil => rfl
  | cons c cs ih => simp [charListLt, ih]

theorem charListLt_asymm : ∀ {a b : List Char},
    charListLt a b = true → charListLt b a = false
  | [], [], h => by simp [charListLt] at h
  | [], _ :: _, _ => rfl
  | _ :: _, [], h => by simp [charListLt] at h
  | a :: as, b :: bs, h => by
    simp only [charListLt, Bool.or_eq_true, decide_eq_true_iff, Bool.and_eq_true,
      beq_iff_eq] at h
    simp only [charListLt, Bool.or_eq_false_iff, decide_eq_false_iff_not,
      Bool.and_eq_false_iff, beq_eq_false_iff_ne, ne_eq]
    rcases h with h | ⟨rfl, h⟩
    · exact ⟨lt_asymm h, .inl fun e => absurd (e ▸ h) (lt_irrefl _)⟩
    · exact ⟨lt_irrefl _, .inr (charListLt_asymm h)⟩

theorem charListLt_trans : ∀ {a b c : List Char},
    charListLt a b = true → charListLt b c = true → charListLt a c = true
  | [], _ :: _, _ :: _, _, _ => rfl
  | [], [], _, h, _ => by simp [charListLt] at h
  | [], _ :: _, [], _, h => by simp [charListLt] at h
  | _ :: _, [], _, h, _ => by simp [charListLt] at h
  | _ :: _, _ :: _, [], _, h => by simp [charListLt] at h
  | a :: as, b :: bs, c :: cs, h, h2 => by
    simp only [charListLt, Bool.or_eq_true, decide_eq_true_iff, Bool.and_eq_true,
      beq_iff_eq] at h h2 ⊢
    rcases h with h | ⟨rfl, h⟩
    · rcases h2 with h2 | ⟨rfl, _⟩
      · exact .inl (lt_trans h h2)
      · exact .inl h
    · rcases h2 with h2 | ⟨rfl, h2⟩
      · exact .inl h2
      · exact .inr ⟨rfl, charListLt_trans h h2⟩

theorem charListLt_conn : ∀ {a b : List Char},
    charListLt a b = false → charListLt b a = false → a = b
  | [], [], _, _ => rfl
  | [], _ :: _, h, _ => by simp [charListLt] at h
  | _ :: _, [], _, h => by simp [charListLt] at h
  | a :: as, b :: bs, h, h2 => by
    simp only [charListLt, Bool.or_eq_false_iff, decide_eq_false_iff_not,
      Bool.and_eq_false_iff, beq_eq_false_iff_ne, ne_eq] at h h2
    obtain ⟨hab, h⟩ := h
    obtain ⟨hba, h2⟩ := h2
    have hcc : a = b := le_antisymm (not_lt.mp hba) (not_lt.mp hab)
    subst hcc
    rcases h with h | h
    · exact absurd rfl h
    · rcases h2 with h2 | h2
      · exact absurd rfl h2
      · exact congrArg (a :: ·) (charListLt_conn h h2)

theorem strLtB_irrefl (a : String) : strLtB a a = false := charListLt_irrefl a.data

theorem strLtB_asymm {a b : String} (h : strLtB a b = true) : strLtB b a = false :=
  charListLt_asymm h

theorem strLtB_trans {a b c : String} (h : strLtB a b = true)
    (h2 : strLtB b c = true) : strLtB a c = true := charListLt_trans h h2

theorem strLtB_conn {a b : String} (h : strLtB a b = false)
    (h2 : strLtB b a = false) : a = b :=
  String.ext (charListLt_conn h h2)

/-- Unfolded characterization of `featRel`. -/
theorem featRel_iff (f g : Feature) :
    featRel f g ↔ strLtB (dkey f) (dkey g) = false ∧
      (dkey f ≠ dkey g ∨ -g.osm_id ≤ -f.osm_id) := by
  simp only [featRel, keyLtB, Bool.or_eq_false_iff, Bool.and_eq_false_iff,
    beq_eq_false_iff_ne, ne_eq, decide_eq_false_iff_not, not_lt]

instance : IsTotal Feature featRel := by
  constructor
  intro f g
  rw [featRel_iff, featRel_iff]
  by_cases hfg : strLtB (dkey f) (dkey g) = true
  · exact .inr ⟨strLtB_asymm hfg, .inl fun e => by
      rw [e] at hfg; exact absurd hfg (by simp [strLtB_irrefl])⟩
  · by_cases hgf : strLtB (dkey g) (dkey f) = true
    · exact .inl ⟨Bool.eq_false_iff.mpr hfg, .inl fun e => by
        rw [e] at hgf; exact absurd hgf (by simp [strLtB_irrefl])⟩
    · rcases le_total (-g.osm_id) (-f.osm_id) with h | h
      · exact .inl ⟨Bool.eq_false_iff.mpr hfg, .inr h⟩
      · exact .inr ⟨Bool.eq_false_iff.mpr hgf, .inr h⟩

instance : IsTrans Feature featRel := by
  constructor
  intro f g h
  rw [featRel_iff, featRel_iff, featRel_iff]
  rintro ⟨hfg, hfg2⟩ ⟨hgh, hgh2⟩
  by_cases e1 : dkey g = dkey f
  · by_cases e2 : dkey h = dkey g
    · refine ⟨by rw [e2, e1, strLtB_irrefl], .inr ?_⟩
      rcases hfg2 with h1 | h1
      · exact absurd e1.symm h1
      rcases hgh2 with h2 | h2
      · exact absurd e2.symm h2
      · exact le_trans h2 h1
    · have hhg : strLtB (dkey h) (dkey g) = true := by
        cases hb : strLtB (dkey h) (dkey g)
        · exact absurd (strLtB_conn hgh hb) (fun e => e2 e.symm)
        · rfl
      refine ⟨by rw [e1] at hhg; exact strLtB_asymm hhg, .inl fun e => ?_⟩
      rw [← e, ← e1] at hhg
      exact absurd hhg (by simp [strLtB_irrefl])
  · have hgf : strLtB (dkey g) (dkey f) = true := by
      cases hb : strLtB (dkey g) (dkey f)
      · exact absurd (strLtB_conn hfg hb) (fun e => e1 e.symm)
      · rfl
    by_cases e2 : dkey h = dkey g
    · rw [e2]
      refine ⟨strLtB_asymm hgf, .inl fun e => ?_⟩
      rw [e] at hgf
      exact absurd hgf (by simp [strLtB_irrefl])
    · have hhg : strLtB (dkey h) (dkey g) = true := by
        cases hb : strLtB (dkey h) (dkey g)
        · exact absurd (strLtB_conn hgh hb) (fun e => e2 e.symm)
        · rfl
      have hhf : strLtB (dkey h) (dkey f) = true := strLtB_trans hhg hgf
      refine ⟨strLtB_asymm hhf, .inl fun e => ?_⟩
      rw [e] at hhf
      exact absurd hhf (by simp [strLtB_irrefl])

/-! ### Basic facts about the merge pipeline -/

theorem sortFeatures_perm (l : List Feature) : List.Perm (sortFeatures l) l :=
  List.perm_insertionSort featRel l

theorem mem_sortFeatures {g : Feature} {l : List Feature} :
    g ∈ sortFeatures l ↔ g ∈ l := (sortFeatures_perm l).mem_iff

theorem runDailyCore_new_lamps (d : Disk) (fetched : List Feature)
    (hm : Bool) (today nowIso : String) :
    (runDailyCore d fetched hm today nowIso).new_lamps =
      sortFeatures ((trulyNew d.known_ids.baseline_ids fetched).map
        (mergeStep d.new_lamps today hm)) := rfl

theorem runDailyCore_baseline (d : Disk) (fetched : List Feature)
    (hm : Bool) (today nowIso : String) :
    (runDailyCore d fetched hm today nowIso).known_ids.baseline_ids =
      d.known_ids.baseline_ids := rfl

theorem mem_runDailyCore_new_lamps {g : Feature} {d : Disk}
    {fetched : List Feature} {hm : Bool} {today nowIso : String} :
    g ∈ (runDailyCore d fetched hm today nowIso).new_lamps ↔
      ∃ f ∈ fetched, (d.known_ids.baseline_ids.contains f.osm_id) = false ∧
        g = mergeStep d.new_lamps today hm f := by
  rw [runDailyCore_new_lamps, mem_sortFeatures, List.mem_map]
  constructor
  · rintro ⟨f, hf, rfl⟩
    rw [trulyNew, List.mem_filter, Bool.not_eq_eq_eq_not, Bool.not_true] at hf
    exact ⟨f, hf.1, hf.2, rfl⟩
  · rintro ⟨f, hf, hb, rfl⟩
    refine ⟨f, ?_, rfl⟩
    rw [trulyNew, List.mem_filter, Bool.not_eq_eq_eq_not, Bool.not_true]
    exact ⟨hf, hb⟩

theorem mergeStep_osm_id (existing : List Feature) (today : String)
    (hm : Bool) (f : Feature) :
    (mergeStep existing today hm f).osm_id = f.osm_id := by
  cases h : lookupById existing f.osm_id <;>
    simp only [mergeStep, h] <;> split <;> rfl

theorem mergeStep_date_added_of_lookup {existing : List Feature}
    {today : String} {hm : Bool} {f ex : Feature}
    (h : lookupById existing f.osm_id = some ex) :
    (mergeStep existing today hm f).date_added = some (ex.date_added.getD today) := by
  simp only [mergeStep, h]
  split <;> rfl

theorem mergeStep_date_added_isSome (existing : List Feature) (today : String)
    (hm : Bool) (f : Feature) :
    ∃ s, (mergeStep existing today hm f).date_added = some s := by
  cases h : lookupById existing f.osm_id <;>
    simp only [mergeStep, h] <;> split <;> exact ⟨_, rfl⟩

theorem mergeStep_user_no_metadata {existing : List Feature} {today : String}
    {f ex : Feature} (h : lookupById existing f.osm_id = some ex)
    (hu : ex.user ≠ "unknown") :
    (mergeStep existing today false f).user = ex.user := by
  simp only [mergeStep, h, Bool.not_false, Bool.true_and]
  rw [if_pos (by simpa using hu)]

theorem mergeStep_user_with_metadata (existing : List Feature) (today : String)
    (f : Feature) :
    (mergeStep existing today true f).user = f.user := by
  cases h : lookupById existing f.osm_id <;> simp only [mergeStep, h]
  · split <;> rfl
  · rfl

/-! ### Claim theorems -/

/-- C9: the freshness gate treats a response with no declared data
timestamp (and one whose timestamp cannot be parsed) as usable, accepts a
parsed lag of at most `MAX_DATA_LAG_HOURS` (24h) as fresh, and rejects a
response only when its parsed lag strictly exceeds that threshold. -/
theorem C9_freshness_gate (ts : String) (p : Option ℚ) :
    ((ts = "" → (check_overpass_timestamp ts p).1 = true) ∧
     (p = none → (check_overpass_timestamp ts p).1 = true)) ∧
    (∀ lag : ℚ, p = some lag → lag ≤ MAX_DATA_LAG_HOURS →
      (check_overpass_timestamp ts p).1 = true) ∧
    ((check_overpass_timestamp ts p).1 = false →
      ∃ lag : ℚ, p = some lag ∧ MAX_DATA_LAG_HOURS < lag ∧ ts ≠ "") := by
  unfold check_overpass_timestamp
  by_cases hts : ts = ""
  · subst hts
    simp
  · rw [if_neg (by simpa using hts)]
    cases p with
    | none =>
        refine ⟨⟨fun h => absurd h hts, fun _ => rfl⟩, ?_, ?_⟩
        · intro lag h
          exact absurd h (by simp)
        · intro h
          simp at h
    | some lag =>
        refine ⟨⟨fun h => absurd h hts, fun h => by simp at h⟩, ?_, ?_⟩
        · intro lag2 h hle
          obtain rfl : lag = lag2 := by simpa using h
          simpa using hle
        · intro h
          simp only [decide_eq_false_iff_not, not_le] at h
          exact ⟨lag, rfl, h, hts⟩

/-- C9 witness: a 3-hour-old response is fresh. -/
theorem C9_freshness_gate_witness :
    (check_overpass_timestamp "2026-02-03T12:00:00Z" (some 3)).1 = true :=
  (C9_freshness_gate "2026-02-03T12:00:00Z" (some 3)).2.1 3 rfl (by decide)

/-- C3: every feature in the merged `new_entities` output has an id not in
`baseline_ids` (which the run leaves unchanged): baseline ids and output
ids are disjoint after every merge. -/
theorem C3_baseline_disjoint (d : Disk) (fetched : List Feature) (hm : Bool)
    (today nowIso : String) (g : Feature)
    (hg : g ∈ (runDailyCore d fetched hm today nowIso).new_lamps) :
    ((runDailyCore d fetched hm today nowIso).known_ids.baseline_ids.contains
      g.osm_id) = false := by
  rw [mem_runDailyCore_new_lamps] at hg
  obtain ⟨f, _, hb, rfl⟩ := hg
  rw [runDailyCore_baseline, mergeStep_osm_id]
  exact hb

/-- C1: an entity whose id is already in the prior `new_entities` (and not
in the baseline) that is re-fetched keeps the prior record's `date_added`
in the merged catalog — for every metadata flag and whatever the fetched
record's edit timestamp is: such an entity exists in the output, and every
output entity with that id carries the prior `date_added`. -/
theorem C1_date_added_immutable (d : Disk) (fetched : List Feature)
    (hm : Bool) (today nowIso : String) (f ex : Feature) (D : String)
    (hf : f ∈ fetched)
    (hb : (d.known_ids.baseline_ids.contains f.osm_id) = false)
    (hex : lookupById d.new_lamps f.osm_id = some ex)
    (hd : ex.date_added = some D) :
    (∃ g ∈ (runDailyCore d fetched hm today nowIso).new_lamps,
        g.osm_id = f.osm_id) ∧
    (∀ g ∈ (runDailyCore d fetched hm today nowIso).new_lamps,
        g.osm_id = f.osm_id → g.date_added = some D) := by
  constructor
  · exact ⟨mergeStep d.new_lamps today hm f,
      mem_runDailyCore_new_lamps.mpr ⟨f, hf, hb, rfl⟩, mergeStep_osm_id _ _ _ _⟩
  · intro g hg hid
    rw [mem_runDailyCore_new_lamps] at hg
    obtain ⟨f2, _, _, rfl⟩ := hg
    rw [mergeStep_osm_id] at hid
    rw [mergeStep_date_added_of_lookup (hid ▸ hex), hd]
    rfl

/-- C6: when the fetch batch has no contributor metadata, an entity already
known with a contributor other than the `"unknown"` sentinel keeps that
contributor, and its `date_added`, in the merged catalog. -/
theorem C6_contributor_retained (d : Disk) (fetched : List Feature)
    (today nowIso : String) (f ex : Feature) (D : String)
    (hf : f ∈ fetched)
    (hb : (d.known_ids.baseline_ids.contains f.osm_id) = false)
    (hex : lookupById d.new_lamps f.osm_id = some ex)
    (hu : ex.user ≠ "unknown") (hd : ex.date_added = some D) :
    (∃ g ∈ (runDailyCore d fetched false today nowIso).new_lamps,
        g.osm_id = f.osm_id) ∧
    (∀ g ∈ (runDailyCore d fetched false today nowIso).new_lamps,
        g.osm_id = f.osm_id → g.user = ex.user ∧ g.date_added = some D) := by
  constructor
  · exact ⟨mergeStep d.new_lamps today false f,
      mem_runDailyCore_new_lamps.mpr ⟨f, hf, hb, rfl⟩, mergeStep_osm_id _ _ _ _⟩
  · intro g hg hid
    rw [mem_runDailyCore_new_lamps] at hg
    obtain ⟨f2, _, _, rfl⟩ := hg
    rw [mergeStep_osm_id] at hid
    refine ⟨mergeStep_user_no_metadata (hid ▸ hex) hu, ?_⟩
    rw [mergeStep_date_added_of_lookup (hid ▸ hex), hd]
    rfl

/-- C10: with contributor metadata present the merge keeps the fetched
record's `user` unconditionally, and the normaliser turns a raw element
without a `user` member into the `"unknown"` sentinel — so a previously
known contributor is replaced by `"unknown"` in the merged catalog. -/
theorem C10_metadata_overwrite (d : Disk) (elements : List RawElement)
    (raw : RawElement) (today nowIso : String) (ex : Feature)
    (hraw : raw ∈ elements) (htyp : raw.typ = "node") (huser : raw.user = none)
    (hb : (d.known_ids.baseline_ids.contains raw.id) = false)
    (_hex : lookupById d.new_lamps raw.id = some ex)
    (_hu : ex.user ≠ "unknown") :
    (∀ f2 : Feature, (mergeStep d.new_lamps today true f2).user = f2.user) ∧
    (normalizeElement raw).user = "unknown" ∧
    mergeStep d.new_lamps today true (normalizeElement raw) ∈
      (runDailyCore d (fetchNormalize elements) true today nowIso).new_lamps ∧
    (mergeStep d.new_lamps today true (normalizeElement raw)).user = "unknown" ∧
    (mergeStep d.new_lamps today true (normalizeElement raw)).osm_id = raw.id := by
  have hnu : (normalizeElement raw).user = "unknown" := by
    simp [normalizeElement, huser]
  refine ⟨fun f2 => mergeStep_user_with_metadata _ _ _, hnu, ?_, ?_, ?_⟩
  · refine mem_runDailyCore_new_lamps.mpr ⟨normalizeElement raw, ?_, ?_, rfl⟩
    · exact List.mem_map.mpr ⟨raw,
        List.mem_filter.mpr ⟨hraw, by simp [htyp]⟩, rfl⟩
    · simpa [normalizeElement] using hb
  · rw [mergeStep_user_with_metadata, hnu]
  · rw [mergeStep_osm_id]
    rfl

/-! ### Concrete data for witnesses and counterexamples -/

/-- Prior stats record used in concrete runs. -/
def wStats : Stats :=
  { baseline_count := 1, new_count := 1, last_updated := "t0",
    data_source := "overpass", leaderboard := [("alice", 1)],
    daily_additions := [("2026-02-03", 1)] }

/-- A prior catalog entity: id 1, contributor alice, added 2026-02-03. -/
def wPrior : Feature :=
  { osm_id := 1, lon := 9, lat := 45, user := "alice", timestamp := "",
    date_added := some "2026-02-03", tags := [] }

/-- The same entity re-reported by a metadata-less fetch. -/
def wFetched : Feature :=
  { osm_id := 1, lon := 9, lat := 45, user := "unknown", timestamp := "",
    date_added := none, tags := [] }

/-- A concrete prior disk: baseline id 99, one prior new entity, and a
`new_ids` entry recorded on 2026-02-02. -/
def wDisk : Disk :=
  { known_ids := { baseline_ids := [99], new_ids := [("2026-02-02", [7])] },
    new_lamps := [wPrior], stats := wStats, last_updated_txt := "t0" }

/-- The entity id 1 as the concrete metadata-carrying run outputs it. -/
def wMerged : Feature :=
  { osm_id := 1, lon := 9, lat := 45, user := "unknown", timestamp := "",
    date_added := some "2026-02-03", tags := [] }

/-- C1 witness: in a concrete run the re-fetched entity keeps `date_added`
2026-02-03. -/
theorem C1_date_added_immutable_witness :
    wMerged.date_added = some "2026-02-03" :=
  (C1_date_added_immutable wDisk [wFetched] true "2026-02-04" "n" wFetched wPrior
    "2026-02-03" (by decide) (by decide) (by decide) (by decide)).2 wMerged
    (by decide) (by decide)

/-- C3 witness: the concrete output entity's id is not a baseline id. -/
theorem C3_baseline_disjoint_witness :
    ((runDailyCore wDisk [wFetched] true "2026-02-04" "n").known_ids.baseline_ids.contains
      wMerged.osm_id) = false :=
  C3_baseline_disjoint wDisk [wFetched] true "2026-02-04" "n" wMerged (by decide)

/-- C6 witness: the spec scenario — prior `id=1, date_added=2026-02-03,
user=alice`, metadata-less re-fetch of id 1 — keeps alice and the date. -/
theorem C6_contributor_retained_witness :
    (mergeStep wDisk.new_lamps "2026-02-04" false wFetched).user = wPrior.user ∧
    (mergeStep wDisk.new_lamps "2026-02-04" false wFetched).date_added =
      some "2026-02-03" :=
  (C6_contributor_retained wDisk [wFetched] "2026-02-04" "n" wFetched wPrior
    "2026-02-03" (by decide) (by decide) (by decide) (by decide) (by decide)).2
    (mergeStep wDisk.new_lamps "2026-02-04" false wFetched) (by decide) (by decide)

/-- A raw fetched element for id 1 without user metadata. -/
def wRaw : RawElement :=
  { typ := "node", id := 1, lon := 9, lat := 45, user := none,
    timestamp := none, tags := [] }

/-- C10 witness: the concrete metadata-flagged batch replaces alice by
`"unknown"`. -/
theorem C10_metadata_overwrite_witness :
    (normalizeElement wRaw).user = "unknown" ∧
    mergeStep wDisk.new_lamps "2026-02-04" true (normalizeElement wRaw) ∈
      (runDailyCore wDisk (fetchNormalize [wRaw]) true "2026-02-04" "n").new_lamps ∧
    (mergeStep wDisk.new_lamps "2026-02-04" true (normalizeElement wRaw)).user = "unknown" ∧
    (mergeStep wDisk.new_lamps "2026-02-04" true (normalizeElement wRaw)).osm_id = wRaw.id :=
  (C10_metadata_overwrite wDisk [wRaw] wRaw "2026-02-04" "n" wPrior
    (by decide) (by decide) (by decide) (by decide) (by decide) (by decide)).2

/-- A prior catalog entity with id 5 that the next fetch does not report. -/
def c2Prior : Feature :=
  { osm_id := 5, lon := 9, lat := 45, user := "bob", timestamp := "",
    date_added := some "2026-02-03", tags := [] }

/-- A prior disk holding only the id-5 entity, with empty baseline. -/
def c2Disk : Disk :=
  { known_ids := { baseline_ids := [], new_ids := [] },
    new_lamps := [c2Prior], stats := wStats, last_updated_txt := "t0" }

/-- C2: the script parses a `--full-refresh` flag whose help text promises
a narrower default fetch, but never reads it, and the merge loop builds
`new_features` from the fetched set alone — so a prior entity absent from
the fetch is dropped in every mode.  Evaluated here: the prior catalog
holds entity 5, the fetch reports nothing, and the merged `new_entities`
comes out empty instead of retaining entity 5. -/
theorem C2_absent_entity_dropped :
    c2Disk.new_lamps.map (fun f => f.osm_id) = [5] ∧
    (runDailyCore c2Disk [] true "2026-02-04" "n").new_lamps = [] := by
  constructor
  · rfl
  · rfl

/-- C4 counterexample: the claim says `new_ids` entries under other dates
are left unchanged, but line 390 replaces the whole index with a
single-entry dict — the entry recorded under 2026-02-02 vanishes. -/
theorem C4_other_dates_dropped :
    wDisk.known_ids.new_ids.lookup "2026-02-02" = some [7] ∧
    (runDailyCore wDisk [wFetched] true "2026-02-03" "n").known_ids.new_ids.lookup
      "2026-02-02" = none := by
  constructor
  · rfl
  · rfl

/-- C4 (amended): after a daily merge the `new_ids` index is replaced
wholesale by the single entry mapping the run date to the full list of
fetched ids not in `baseline_ids` (not merely the newly discovered ones);
entries recorded under every other date are discarded. -/
theorem C4_new_ids_wholesale (d : Disk) (fetched : List Feature) (hm : Bool)
    (today nowIso : String) :
    (runDailyCore d fetched hm today nowIso).known_ids.new_ids =
      [(today, (trulyNew d.known_ids.baseline_ids fetched).map fun f => f.osm_id)] ∧
    ∀ date : String, date ≠ today →
      (runDailyCore d fetched hm today nowIso).known_ids.new_ids.lookup date = none := by
  refine ⟨rfl, fun date hne => ?_⟩
  have : (date == today) = false := beq_eq_false_iff_ne.mpr hne
  simp [runDailyCore, List.lookup, this]

/-- C4 witness: on a concrete run the index is the single 2026-02-03 entry
and the 2026-02-02 lookup is empty. -/
theorem C4_new_ids_wholesale_witness :
    (runDailyCore wDisk [wFetched] true "2026-02-03" "n").known_ids.new_ids =
      [("2026-02-03",
        (trulyNew wDisk.known_ids.baseline_ids [wFetched]).map fun f => f.osm_id)] ∧
    (runDailyCore wDisk [wFetched] true "2026-02-03" "n").known_ids.new_ids.lookup
      "2026-02-02" = none :=
  ⟨(C4_new_ids_wholesale wDisk [wFetched] true "2026-02-03" "n").1,
   (C4_new_ids_wholesale wDisk [wFetched] true "2026-02-03" "n").2 "2026-02-02"
     (by decide)⟩

/-! ### C5: output ordering -/

/-- The ordering the spec claims: `date_added` descending, ties broken by
id descending. -/
def specOrdDesc (f g : Feature) : Prop :=
  strLtB (dkey g) (dkey f) = true ∨ (dkey f = dkey g ∧ g.osm_id ≤ f.osm_id)

instance : DecidableRel specOrdDesc := fun _ _ => inferInstanceAs (Decidable (_ ∨ _))

/-- The ordering the code produces: `date_added` descending, ties broken by
id ascending (the `reverse=True` sort on key `(date_added, -osm_id)`). -/
def codeOrdDesc (f g : Feature) : Prop :=
  strLtB (dkey g) (dkey f) = true ∨ (dkey f = dkey g ∧ f.osm_id ≤ g.osm_id)

/-- Two first observations in one run, ids 1 and 2, no edit timestamps: both
get today as `date_added`. -/
def c5a : Feature :=
  { osm_id := 1, lon := 9, lat := 45, user := "u", timestamp := "",
    date_added := none, tags := [] }

/-- Second fetched entity, id 2. -/
def c5b : Feature :=
  { osm_id := 2, lon := 9, lat := 45, user := "v", timestamp := "",
    date_added := none, tags := [] }

/-- An empty prior disk. -/
def c5Disk : Disk :=
  { known_ids := { baseline_ids := [], new_ids := [] },
    new_lamps := [], stats := wStats, last_updated_txt := "t0" }

/-- C5 counterexample: with two entities sharing `date_added`, the written
collection is NOT sorted with ids descending among the tie — the run
orders id 1 before id 2. -/
theorem C5_not_id_descending :
    ¬ List.Pairwise specOrdDesc
      ((runDailyCore c5Disk [c5a, c5b] true "2026-02-04" "n").new_lamps) := by
  decide

/-- C5 (amended): the merged collection is sorted by `date_added`
descending and, among entities with equal `date_added`, by id ascending. -/
theorem C5_sorted_date_desc_id_asc (d : Disk) (fetched : List Feature)
    (hm : Bool) (today nowIso : String) :
    List.Pairwise codeOrdDesc
      ((runDailyCore d fetched hm today nowIso).new_lamps) := by
  rw [runDailyCore_new_lamps]
  have hs : List.Sorted featRel
      (sortFeatures ((trulyNew d.known_ids.baseline_ids fetched).map
        (mergeStep d.new_lamps today hm))) :=
    List.sorted_insertionSort featRel _
  refine List.Pairwise.imp ?_ hs
  intro f g hr
  rw [featRel_iff] at hr
  obtain ⟨hlt, hor⟩ := hr
  by_cases he : dkey f = dkey g
  · rcases hor with h | h
    · exact absurd he h
    · exact .inr ⟨he, by omega⟩
  · left
    cases hb : strLtB (dkey g) (dkey f)
    · exact absurd (strLtB_conn hb hlt) fun e => he e.symm
    · rfl

/-! ### C7: provider exhaustion -/

/-- An endpoint attempt that yields no fresh, structurally valid response:
any error, or a parsed response the freshness gate rejects. -/
def attemptFails (a : Attempt) : Bool :=
  match a with
  | .ok r => !(check_overpass_timestamp r.timestamp_osm_base r.parseLag).1
  | _ => true

theorem overpass_query_exhausted {attempts : List Attempt}
    (h : ∀ a ∈ attempts, attemptFails a = true) :
    overpass_query attempts = .error () := by
  induction attempts with
  | nil => rfl
  | cons a rest ih =>
    have hrest : ∀ b ∈ rest, attemptFails b = true :=
      fun b hb => h b (List.mem_cons_of_mem a hb)
    cases a with
    | ok r =>
        have hfr := h (.ok r) (List.mem_cons_self _ _)
        simp only [attemptFails, Bool.not_eq_true'] at hfr
        simp only [overpass_query, hfr, Bool.false_eq_true, if_false]
        exact ih hrest
    | httpError code => exact ih hrest
    | urlError => exact ih hrest
    | exn => exact ih hrest

/-- C7: when every endpoint attempt is exhausted without a fresh valid
response and the Postpass fallback is disabled or itself fails, the run
terminates in an error and produces no new `Disk`: none of the persisted
artifacts (id ledger, entity collection, stats, last-updated marker) is
written and the on-disk catalog is unchanged. -/
theorem C7_no_write_on_exhaustion (d : Disk) (attempts : List Attempt)
    (postpass : Except Unit (List Feature)) (use_postpass_fallback : Bool)
    (today nowIso : String)
    (hall : ∀ a ∈ attempts, attemptFails a = true)
    (hfb : use_postpass_fallback = false ∨ postpass = .error ()) :
    mainRun d attempts postpass use_postpass_fallback today nowIso = .error () := by
  have hq : overpass_query attempts = .error () := overpass_query_exhausted hall
  have hov : fetch_new_streetlamps_overpass attempts = .error () := by
    rw [fetch_new_streetlamps_overpass, hq]
    rfl
  rcases hfb with rfl | hpp
  · rw [mainRun, fetch_new_streetlamps, hov]
    rfl
  · rw [mainRun, fetch_new_streetlamps, hov]
    cases use_postpass_fallback
    · rfl
    · rw [hpp]
      rfl

/-- A structurally valid but stale response: data 30 hours old. -/
def wStale : OverpassResponse :=
  { timestamp_osm_base := "2026-02-02T00:00:00Z", parseLag := some 30,
    elements := [] }

/-- C7 witness: two transport-failing endpoints plus a stale one, Postpass
fallback also failing, leave the run in the error state. -/
theorem C7_no_write_on_exhaustion_witness :
    mainRun wDisk [.httpError 429, .urlError, .ok wStale] (.error ()) true
      "2026-02-04" "n" = .error () :=
  C7_no_write_on_exhaustion wDisk [.httpError 429, .urlError, .ok wStale]
    (.error ()) true "2026-02-04" "n" (by decide) (.inr rfl)

/-! ### C8: idempotence of the merge -/

theorem mergeStep_eq_update (existing : List Feature) (today : String)
    (hm : Bool) (f : Feature) :
    ∃ u s, mergeStep existing today hm f = { f with user := u, date_added := some s } := by
  cases h : lookupById existing f.osm_id with
  | some ex =>
      simp only [mergeStep, h]
      split
      · exact ⟨ex.user, ex.date_added.getD today, rfl⟩
      · exact ⟨f.user, ex.date_added.getD today, rfl⟩
  | none =>
      simp only [mergeStep, h]
      split
      · exact ⟨f.user, f.timestamp.take 10, rfl⟩
      · exact ⟨f.user, today, rfl⟩

theorem mergeStep_user_cases (existing : List Feature) (today : String)
    (hm : Bool) (f : Feature) :
    (mergeStep existing today hm f).user = f.user ∨
      (hm = false ∧ (mergeStep existing today hm f).user ≠ "unknown") := by
  cases h : lookupById existing f.osm_id with
  | some ex =>
      simp only [mergeStep, h]
      split
      · rename_i hcond
        rw [Bool.and_eq_true, Bool.not_eq_true', bne_iff_ne] at hcond
        exact .inr ⟨hcond.1, hcond.2⟩
      · exact .inl rfl
  | none =>
      simp only [mergeStep, h]
      split
      · exact .inl rfl
      · exact .inl rfl

theorem mergeStep_idem {existing2 existing : List Feature} {today : String}
    {hm : Bool} {f : Feature}
    (h : lookupById existing2 f.osm_id = some (mergeStep existing today hm f)) :
    mergeStep existing2 today hm f = mergeStep existing today hm f := by
  have huc := mergeStep_user_cases existing today hm f
  obtain ⟨u, s, hg⟩ := mergeStep_eq_update existing today hm f
  rw [hg] at h huc ⊢
  simp only at huc
  simp only [mergeStep, h]
  cases hm with
  | true =>
      rcases huc with huc | huc
      · simp only [Bool.not_true, Bool.false_and, Bool.false_eq_true, if_false,
          Option.getD_some]
        rw [← huc]
      · exact absurd huc.1 (by simp)
  | false =>
      by_cases hu : u = "unknown"
      · rcases huc with huc | huc
        · simp only [Bool.not_false, Bool.true_and, hu, Option.getD_some]
          rw [if_neg (by simp), ← huc, ← hu]
        · exact absurd hu huc.2
      · simp only [Bool.not_false, Bool.true_and, Option.getD_some]
        rw [if_pos (by simpa using hu)]

theorem filter_eq_single {l : List Feature} {f : Feature}
    (hn : (l.map (fun x => x.osm_id)).Nodup) (hf : f ∈ l) :
    l.filter (fun x => x.osm_id == f.osm_id) = [f] := by
  induction l with
  | nil => cases hf
  | cons a l ih =>
    rw [List.map_cons, List.nodup_cons] at hn
    rcases List.mem_cons.mp hf with rfl | hfl
    · rw [List.filter_cons_of_pos (by simp)]
      have hnil : l.filter (fun x => x.osm_id == f.osm_id) = [] := by
        rw [List.filter_eq_nil_iff]
        intro x hx hxa
        have hxe : x.osm_id = f.osm_id := by simpa using hxa
        exact hn.1 (List.mem_map.mpr ⟨x, hx, hxe⟩)
      rw [hnil]
    · have hne : (a.osm_id == f.osm_id) = false := by
        refine beq_eq_false_iff_ne.mpr fun e => hn.1 ?_
        rw [e]
        exact List.mem_map.mpr ⟨f, hfl, rfl⟩
      rw [List.filter_cons_of_neg (by simp [hne])]
      exact ih hn.2 hfl

theorem lookupById_sortFeatures {l : List Feature} {f : Feature}
    (hn : (l.map (fun x => x.osm_id)).Nodup) (hf : f ∈ l) :
    lookupById (sortFeatures l) f.osm_id = some f := by
  unfold lookupById
  have pf := (sortFeatures_perm l).filter (fun x => x.osm_id == f.osm_id)
  rw [filter_eq_single hn hf] at pf
  rw [List.perm_singleton.mp pf]
  rfl

/-- C8: full-mode merge is idempotent — re-running the merge with the same
fetched set (with unique ids, as dict keys are) on the catalog the first
merge produced reproduces the same `new_entities` collection, the same id
ledger (`baseline_ids` and `new_ids`), and the same leaderboard and daily
histogram. -/
theorem C8_full_merge_idempotent (d : Disk) (fetched : List Feature)
    (hm : Bool) (today nowIso : String)
    (hnd : (fetched.map (fun f => f.osm_id)).Nodup) :
    (runDailyCore (runDailyCore d fetched hm today nowIso) fetched hm today
        nowIso).new_lamps = (runDailyCore d fetched hm today nowIso).new_lamps ∧
    (runDailyCore (runDailyCore d fetched hm today nowIso) fetched hm today
        nowIso).known_ids = (runDailyCore d fetched hm today nowIso).known_ids ∧
    (runDailyCore (runDailyCore d fetched hm today nowIso) fetched hm today
        nowIso).stats.leaderboard =
      (runDailyCore d fetched hm today nowIso).stats.leaderboard ∧
    (runDailyCore (runDailyCore d fetched hm today nowIso) fetched hm today
        nowIso).stats.daily_additions =
      (runDailyCore d fetched hm today nowIso).stats.daily_additions := by
  have hnd_tn : ((trulyNew d.known_ids.baseline_ids fetched).map
      (fun f => f.osm_id)).Nodup :=
    hnd.sublist ((List.filter_sublist fetched).map (fun f => f.osm_id))
  have hmap_ids : (((trulyNew d.known_ids.baseline_ids fetched).map
      (mergeStep d.new_lamps today hm)).map (fun f => f.osm_id)) =
        (trulyNew d.known_ids.baseline_ids fetched).map (fun f => f.osm_id) := by
    rw [List.map_map]
    exact List.map_congr_left fun a _ => mergeStep_osm_id _ _ _ _
  have hnd_mapped : (((trulyNew d.known_ids.baseline_ids fetched).map
      (mergeStep d.new_lamps today hm)).map (fun f => f.osm_id)).Nodup := by
    rw [hmap_ids]
    exact hnd_tn
  have key : ∀ f ∈ trulyNew d.known_ids.baseline_ids fetched,
      mergeStep (runDailyCore d fetched hm today nowIso).new_lamps today hm f =
        mergeStep d.new_lamps today hm f := by
    intro f hf
    apply mergeStep_idem
    rw [runDailyCore_new_lamps]
    have hmem : mergeStep d.new_lamps today hm f ∈
        (trulyNew d.known_ids.baseline_ids fetched).map
          (mergeStep d.new_lamps today hm) :=
      List.mem_map.mpr ⟨f, hf, rfl⟩
    have := lookupById_sortFeatures hnd_mapped hmem
    rwa [mergeStep_osm_id] at this
  have hfs : (runDailyCore (runDailyCore d fetched hm today nowIso) fetched hm
      today nowIso).new_lamps = (runDailyCore d fetched hm today nowIso).new_lamps := by
    rw [runDailyCore_new_lamps, runDailyCore_new_lamps]
    exact congrArg sortFeatures (List.map_congr_left key)
  refine ⟨hfs, rfl, ?_, ?_⟩
  · exact congrArg leaderboard hfs
  · exact congrArg daily_additions hfs

/-- C8 witness: a concrete second merge of the single-entity fetch changes
nothing. -/
theorem C8_full_merge_idempotent_witness :
    (runDailyCore (runDailyCore wDisk [wFetched] true "2026-02-04" "n") [wFetched]
        true "2026-02-04" "n").new_lamps =
      (runDailyCore wDisk [wFetched] true "2026-02-04" "n").new_lamps ∧
    (runDailyCore (runDailyCore wDisk [wFetched] true "2026-02-04" "n") [wFetched]
        true "2026-02-04" "n").known_ids =
      (runDailyCore wDisk [wFetched] true "2026-02-04" "n").known_ids ∧
    (runDailyCore (runDailyCore wDisk [wFetched] true "2026-02-04" "n") [wFetched]
        true "2026-02-04" "n").stats.leaderboard =
      (runDailyCore wDisk [wFetched] true "2026-02-04" "n").stats.leaderboard ∧
    (runDailyCore (runDailyCore wDisk [wFetched] true "2026-02-04" "n") [wFetched]
        true "2026-02-04" "n").stats.daily_additions =
      (runDailyCore wDisk [wFetched] true "2026-02-04" "n").stats.daily_additions :=
  C8_full_merge_idempotent wDisk [wFetched] true "2026-02-04" "n" (by decide)

end Lampioni
